import Mathlib

/-
Shallow embedding of the RPC connection pool and service registry of the
backend_utils repository (files: the pool source defining RpcClientPool
with createPool / newRPCConn / NewRpcClientPool / Get / Put, and
configurator.go defining Configurations with CreateClientPool /
GetPooledConn / PooledConnDone).

Modelling conventions, stated once here:

* grpc.ClientConn pointers are opaque handles, modelled as Nat.  A call to
  grpc.Dial that succeeds returns a pointer distinct from every live one;
  we model this with a per-pool attempt counter `dialCounter`: the t-th
  dial attempt yields handle `t` when it succeeds.  `dialCounter` advances
  by exactly one at every evaluation of `newRPCConn`, so it also counts
  how many times the dial function has been invoked.
* The outcome of the external dial (including TLS-credential loading) is
  an oracle `dialOk : ConnEndpointInfo → Nat → Bool` indexed by the target
  endpoint descriptor and the attempt counter.
* The stored heartbeat function `doHeartBeat` returns a Go error; we model
  it as `Nat → Bool`, `true` meaning "no error" (healthy).
* Go maps are association lists with unique keys (insert = erase + cons);
  a Go map read of a missing Nat-valued key yields the zero value 0, and a
  missing struct value yields the zero struct.
* The buffered channel conn_pool is a FIFO list plus its `capacity`
  (the size given to make); a non-blocking send (select/default) appends
  only when the buffer is not full, a non-blocking receive pops the front
  only when the buffer is non-empty.
* LogUtil only logs and returns the error passed to it; logging is dropped
  and the returned error is the modelled error value.  The string error
  constants INVALID_REQ and FATAL_ERROR become the inductive `PoolError`.
* Go panics (explicit panic, and method/field access through a nil
  pointer) are the `panic` constructor of `PanicOr`.
* A `for k, v := range` over a Go map visits entries in an unspecified
  order; the model fixes the insertion order of the association list as
  the iteration order.
-/

/-- Association-list lookup, the comma-ok form of a Go map read. -/
def lookupA {κ α : Type} [DecidableEq κ] : List (κ × α) → κ → Option α
  | [], _ => none
  | (k, v) :: rest, key => if k = key then some v else lookupA rest key

/-- Removes every binding of `key`; helper for Go map delete / overwrite. -/
def eraseA {κ α : Type} [DecidableEq κ] : List (κ × α) → κ → List (κ × α)
  | [], _ => []
  | (k, v) :: rest, key =>
      if k = key then eraseA rest key else (k, v) :: eraseA rest key

/-- Go map insert: overwrites any previous binding of `key`. -/
def insertA {κ α : Type} [DecidableEq κ] (m : List (κ × α)) (key : κ) (v : α) :
    List (κ × α) :=
  (key, v) :: eraseA m key

/-- ConnEndpointInfo from the pool source: one dialable backend. -/
structure ConnEndpointInfo where
  tls : Bool
  certFile : String
  serverHostOverride : String
  serverAddr : String
deriving DecidableEq

/-- The Go zero value ConnEndpointInfo{}, returned by a map read of a
missing endpoint index. -/
def ConnEndpointInfo.zero : ConnEndpointInfo :=
  { tls := false, certFile := "", serverHostOverride := "", serverAddr := "" }

/-- The two error constants returned by createPool (INVALID_REQ and
FATAL_ERROR in the source). -/
inductive PoolError where
  | invalidConfig
  | fatal
deriving DecidableEq

/-- RpcClientPool: the pool struct.  `conn_pool` is the buffered channel's
current content (front = next receive) and `capacity` its buffer size;
`conn_endpoints` maps a live connection handle to the index of the
endpoint it was dialed against; `endpoints_map` maps an endpoint index to
its descriptor; `dialCounter` is the modelling counter for dial attempts
(see the header comment). -/
structure RpcClientPool where
  doHeartBeat : Nat → Bool
  conn_pool : List Nat
  conn_endpoints : List (Nat × Nat)
  endpoints_map : List (Nat × ConnEndpointInfo)
  capacity : Nat
  pool_created : Bool
  dialCounter : Nat

/-- newRPCConn: the external grpc.Dial (with credential setup), reduced to
the oracle `dialOk`; attempt `t` yields the fresh handle `t` on success. -/
def newRPCConn (dialOk : ConnEndpointInfo → Nat → Bool)
    (ep : ConnEndpointInfo) (t : Nat) : Option Nat :=
  if dialOk ep t then some t else none

/-- Put: non-blocking send on the buffered channel — appends when the
buffer has spare room, otherwise silently drops the connection. -/
def Put (r : RpcClientPool) (conn : Nat) : RpcClientPool :=
  if r.conn_pool.length < r.capacity then
    { r with conn_pool := r.conn_pool ++ [conn] }
  else r

/-- The recursive body of Get.  Get recurses on the whole receiver after
popping one connection from the channel and (on heartbeat plus redial
failure) shrinking the ownership map; all other fields of the receiver are
untouched by the recursion, so the loop is phrased over the channel
content `queue`, the ownership map `ce` and the dial counter `t`, with the
constant fields (`hb` = doHeartBeat, `em` = endpoints_map) as parameters.
Result: (returned connection, final queue, final ownership map, final
counter).

Branches, in source order: the `len(conn_endpoints) == 0` early return;
the select/default on an empty channel (conn stays nil); heartbeat
success; heartbeat failure with ownership delete, redial of the endpoint
recorded for the dead connection (a missing index reads the zero
descriptor), and either re-registration of the fresh handle or the
recursive `return r.Get()`. -/
def getLoop (dialOk : ConnEndpointInfo → Nat → Bool) (hb : Nat → Bool)
    (em : List (Nat × ConnEndpointInfo)) :
    List Nat → List (Nat × Nat) → Nat →
      Option Nat × List Nat × List (Nat × Nat) × Nat
  | [], ce, t => (none, [], ce, t)
  | conn :: rest, ce, t =>
    if ce.length = 0 then (none, conn :: rest, ce, t)
    else if hb conn then (some conn, rest, ce, t)
    else
      let ep := (lookupA ce conn).getD 0
      let m := eraseA ce conn
      match newRPCConn dialOk ((lookupA em ep).getD ConnEndpointInfo.zero) t with
      | some c2 => (some c2, rest, insertA m c2 ep, t + 1)
      | none => getLoop dialOk hb em rest m (t + 1)

/-- Get: returns the connection handed out (none models returning nil)
together with the updated pool. -/
def Get (dialOk : ConnEndpointInfo → Nat → Bool) (r : RpcClientPool) :
    Option Nat × RpcClientPool :=
  let res := getLoop dialOk r.doHeartBeat r.endpoints_map
      r.conn_pool r.conn_endpoints r.dialCounter
  (res.1, { r with conn_pool := res.2.1, conn_endpoints := res.2.2.1,
                   dialCounter := res.2.2.2 })

/-- The inner `for j := 0; j < conn_per_ep; j++` loop of createPool for
endpoint index `i`: each iteration attempts one dial; on success the new
connection is recorded in the ownership map and pushed with Put, on
failure the error is logged and the attempt skipped. -/
def dialLoop (dialOk : ConnEndpointInfo → Nat → Bool) (i : Nat)
    (ep : ConnEndpointInfo) : Nat → RpcClientPool → RpcClientPool
  | 0, r => r
  | j + 1, r =>
    match newRPCConn dialOk ep r.dialCounter with
    | some c =>
        dialLoop dialOk i ep j
          (Put { r with conn_endpoints := insertA r.conn_endpoints c i,
                        dialCounter := r.dialCounter + 1 } c)
    | none =>
        dialLoop dialOk i ep j { r with dialCounter := r.dialCounter + 1 }

/-- The outer `for i := range endpoints` loop of createPool: records the
descriptor under index `i` in endpoints_map, then runs the dial loop. -/
def epLoop (dialOk : ConnEndpointInfo → Nat → Bool) (conn_per_ep : Nat) :
    List ConnEndpointInfo → Nat → RpcClientPool → RpcClientPool
  | [], _, r => r
  | ep :: rest, i, r =>
      epLoop dialOk conn_per_ep rest (i + 1)
        (dialLoop dialOk i ep conn_per_ep
          { r with endpoints_map := insertA r.endpoints_map i ep })

/-- createPool: validates the arguments, resets the maps and the channel
(buffer capacity conn_per_ep * len(endpoints)), runs the dial loops, and
fails with FATAL_ERROR when the ownership map stayed empty; otherwise
marks the pool created.  Mirrors the Go method that mutates the receiver
and returns an error: the result is (receiver state, returned error). -/
def createPool (dialOk : ConnEndpointInfo → Nat → Bool)
    (endpoints : List ConnEndpointInfo) (conn_per_ep : Nat)
    (r : RpcClientPool) : RpcClientPool × Option PoolError :=
  if endpoints.length = 0 ∨ conn_per_ep = 0 then
    (r, some PoolError.invalidConfig)
  else
    let r0 := { r with conn_endpoints := [], conn_pool := [],
                       capacity := conn_per_ep * endpoints.length,
                       endpoints_map := [] }
    let r1 := epLoop dialOk conn_per_ep endpoints 0 r0
    if r1.conn_endpoints.length = 0 then (r1, some PoolError.fatal)
    else ({ r1 with pool_created := true }, none)

/-- new(RpcClientPool) with the heartbeat function stored: every other
field holds its zero value. -/
def RpcClientPool.init (hb : Nat → Bool) : RpcClientPool :=
  { doHeartBeat := hb, conn_pool := [], conn_endpoints := [],
    endpoints_map := [], capacity := 0, pool_created := false,
    dialCounter := 0 }

/-- NewRpcClientPool: allocates the pool, stores the heartbeat function,
runs createPool, and returns nil (none) when createPool errored. -/
def NewRpcClientPool (hb : Nat → Bool)
    (dialOk : ConnEndpointInfo → Nat → Bool)
    (endpoints : List ConnEndpointInfo) (conn_per_ep : Nat) :
    Option RpcClientPool :=
  match createPool dialOk endpoints conn_per_ep (RpcClientPool.init hb) with
  | (_, some _) => none
  | (r, none) => some r

/-- One client-visible pool operation, for stating properties of arbitrary
Get / Put sequences after creation. -/
inductive PoolOp where
  | get : PoolOp
  | put : Nat → PoolOp

/-- The pool state after one operation (a Get's returned value is dropped,
only the state evolution matters here). -/
def step (dialOk : ConnEndpointInfo → Nat → Bool) (r : RpcClientPool) :
    PoolOp → RpcClientPool
  | PoolOp.get => (Get dialOk r).2
  | PoolOp.put c => Put r c

/-- The pool state after a sequence of operations. -/
def runOps (dialOk : ConnEndpointInfo → Nat → Bool) :
    List PoolOp → RpcClientPool → RpcClientPool
  | [], r => r
  | op :: rest, r => runOps dialOk rest (step dialOk r op)

/-- Number of `t` in the attempt window [start, start+len) with `p t`. -/
def countRange (p : Nat → Bool) : Nat → Nat → Nat
  | _, 0 => 0
  | start, j + 1 => (if p start then 1 else 0) + countRange p (start + 1) j

/-- Number of successful dials across createPool's attempt schedule:
endpoint `i` of the list owns the attempt-counter window of width
conn_per_ep starting after all earlier endpoints' windows. -/
def dialSuccesses (dialOk : ConnEndpointInfo → Nat → Bool)
    (conn_per_ep : Nat) : List ConnEndpointInfo → Nat → Nat
  | [], _ => 0
  | ep :: rest, start =>
      countRange (fun u => dialOk ep u) start conn_per_ep
        + dialSuccesses dialOk conn_per_ep rest (start + conn_per_ep)

/-- All connection handles in the map are below the counter: the
freshness invariant of the dial-counter modelling. -/
def keysBelow {α : Type} (m : List (Nat × α)) (t : Nat) : Prop :=
  ∀ kv ∈ m, kv.1 < t

/-- GrpcClientConfig from configurator.go, restricted to the fields the
registry and the pool consume (svc_name plus the connection fields). -/
structure GrpcClientConfig where
  svcName : String
  useTls : Bool
  certFile : String
  serverHostOverride : String
  serverAddr : String
deriving DecidableEq

/-- The endpoint descriptor carried by a client config: CreateClientPool
hands the per-service configs to NewRpcClientPool as the endpoint list,
and the pool consumes exactly these four fields of each. -/
def GrpcClientConfig.toEndpoint (c : GrpcClientConfig) : ConnEndpointInfo :=
  { tls := c.useTls, certFile := c.certFile,
    serverHostOverride := c.serverHostOverride,
    serverAddr := c.serverAddr }

/-- Configurations, restricted to the client-pool fields: the parsed
client configs and the service-name-to-pool map.  A map value `none`
is a stored nil pool pointer. -/
structure Configurations where
  clientConfig : List GrpcClientConfig
  client_map : List (String × Option RpcClientPool)

/-- The grouping loop of CreateClientPool.  Source:

    if val, ok := ep_map[svc]; ok { val = append(val, cfg) }
    else { ep_map[svc] = []interface\x7bcfg\x7d }

The then-branch appends to the local copy `val` and never stores it back,
so a config whose service name is already present is dropped; only the
first config of each service name reaches the map. -/
def groupConfigs : List GrpcClientConfig →
    List (String × List GrpcClientConfig) →
    List (String × List GrpcClientConfig)
  | [], m => m
  | cfg :: rest, m =>
    match lookupA m cfg.svcName with
    | some _ => groupConfigs rest m
    | none => groupConfigs rest (m ++ [(cfg.svcName, [cfg])])

/-- The `for k, v := range ep_map` loop of CreateClientPool: a missing
heartbeat aborts before that service's pool is stored; otherwise the pool
(nil included) is stored under the service name and a nil pool aborts the
build with the error.  The result is (registry state, returned error
message). -/
def buildPools (heartbeat_map : List (String × (Nat → Bool)))
    (dialOk : ConnEndpointInfo → Nat → Bool) (conn_per_ep : Nat) :
    List (String × List GrpcClientConfig) → Configurations →
      Configurations × Option String
  | [], c => (c, none)
  | (k, v) :: rest, c =>
    match lookupA heartbeat_map k with
    | none => (c, some ("Heartbeat function missing for Service " ++ k))
    | some hbf =>
      let pool := NewRpcClientPool hbf dialOk
          (v.map GrpcClientConfig.toEndpoint) conn_per_ep
      let c2 := { c with client_map := insertA c.client_map k pool }
      match pool with
      | none => (c2, some ("Failed to create conn pool for Service " ++ k))
      | some _ => buildPools heartbeat_map dialOk conn_per_ep rest c2

/-- CreateClientPool: groups the client configs by service name, resets
client_map, and builds one pool per grouped service. -/
def CreateClientPool (heartbeat_map : List (String × (Nat → Bool)))
    (dialOk : ConnEndpointInfo → Nat → Bool) (c : Configurations)
    (conn_per_ep : Nat) : Configurations × Option String :=
  buildPools heartbeat_map dialOk conn_per_ep
    (groupConfigs c.clientConfig []) { c with client_map := [] }

/-- Normal return or Go panic. -/
inductive PanicOr (α : Type) where
  | panic : String → PanicOr α
  | ok : α → PanicOr α

/-- GetPooledConn: unknown service returns nil (no panic); a stored nil
pool faults on the pool_created field read; an un-created pool returns
nil; otherwise the service's pool handles the Get and the updated pool is
what the map's pointer now refers to. -/
def GetPooledConn (dialOk : ConnEndpointInfo → Nat → Bool)
    (c : Configurations) (svc : String) :
    PanicOr (Option Nat × Configurations) :=
  match lookupA c.client_map svc with
  | none => PanicOr.ok (none, c)
  | some none =>
      PanicOr.panic "runtime error: invalid memory address or nil pointer dereference"
  | some (some pool) =>
    if pool.pool_created then
      let res := Get dialOk pool
      PanicOr.ok (res.1,
        { c with client_map := insertA c.client_map svc (some res.2) })
    else PanicOr.ok (none, c)

/-- PooledConnDone: unknown service panics; a stored nil pool faults
inside Put's channel send; otherwise the connection is Put back. -/
def PooledConnDone (c : Configurations) (svc : String) (conn : Nat) :
    PanicOr Configurations :=
  match lookupA c.client_map svc with
  | none => PanicOr.panic "unexpected connection returned to pool."
  | some none =>
      PanicOr.panic "runtime error: invalid memory address or nil pointer dereference"
  | some (some pool) =>
      PanicOr.ok
        { c with client_map := insertA c.client_map svc (some (Put pool conn)) }

/- ------------------------------------------------------------------ -/
/- Association-list helper lemmas.                                    -/
/- ------------------------------------------------------------------ -/

theorem lookupA_eraseA_self {κ α : Type} [DecidableEq κ]
    (m : List (κ × α)) (k : κ) : lookupA (eraseA m k) k = none := by
  induction m with
  | nil => rfl
  | cons hd tl ih =>
    obtain ⟨k0, v0⟩ := hd
    by_cases h : k0 = k
    · simpa [eraseA, h] using ih
    · simpa [eraseA, lookupA, h] using ih

theorem lookupA_eraseA_ne {κ α : Type} [DecidableEq κ]
    (m : List (κ × α)) (k key : κ) (h : key ≠ k) :
    lookupA (eraseA m k) key = lookupA m key := by
  induction m with
  | nil => rfl
  | cons hd tl ih =>
    obtain ⟨k0, v0⟩ := hd
    by_cases h0 : k0 = k
    · subst h0
      simp [eraseA, lookupA, Ne.symm h, ih]
    · simp [eraseA, lookupA, h0, ih]

theorem lookupA_insertA_self {κ α : Type} [DecidableEq κ]
    (m : List (κ × α)) (k : κ) (v : α) :
    lookupA (insertA m k v) k = some v := by
  simp [insertA, lookupA]

theorem lookupA_insertA_ne {κ α : Type} [DecidableEq κ]
    (m : List (κ × α)) (k key : κ) (v : α) (h : key ≠ k) :
    lookupA (insertA m k v) key = lookupA m key := by
  have : k ≠ key := fun hc => h hc.symm
  simp [insertA, lookupA, this, lookupA_eraseA_ne m k key h]

theorem eraseA_eq_self {κ α : Type} [DecidableEq κ]
    (m : List (κ × α)) (k : κ) (h : lookupA m k = none) :
    eraseA m k = m := by
  induction m with
  | nil => rfl
  | cons hd tl ih =>
    obtain ⟨k0, v0⟩ := hd
    by_cases h0 : k0 = k
    · simp [lookupA, h0] at h
    · simp [lookupA, h0] at h
      simp [eraseA, h0, ih h]

theorem length_insertA_fresh {κ α : Type} [DecidableEq κ]
    (m : List (κ × α)) (k : κ) (v : α) (h : lookupA m k = none) :
    (insertA m k v).length = m.length + 1 := by
  simp [insertA, eraseA_eq_self m k h]

theorem mem_of_mem_eraseA {κ α : Type} [DecidableEq κ]
    (m : List (κ × α)) (k : κ) (kv : κ × α) (h : kv ∈ eraseA m k) :
    kv ∈ m := by
  induction m with
  | nil => simp [eraseA] at h
  | cons hd tl ih =>
    obtain ⟨k0, v0⟩ := hd
    by_cases h0 : k0 = k
    · simp [eraseA, h0] at h
      exact List.mem_cons_of_mem _ (ih h)
    · simp [eraseA, h0] at h
      rcases h with h | h
      · simp [h]
      · exact List.mem_cons_of_mem _ (ih h)

/- ------------------------------------------------------------------ -/
/- Freshness-invariant lemmas.                                        -/
/- ------------------------------------------------------------------ -/

theorem keysBelow_lookup_none {α : Type} (m : List (Nat × α)) (t : Nat)
    (h : keysBelow m t) : lookupA m t = none := by
  induction m with
  | nil => rfl
  | cons hd tl ih =>
    obtain ⟨k0, v0⟩ := hd
    have hk : k0 < t := h (k0, v0) (List.mem_cons_self _ _)
    have : k0 ≠ t := Nat.ne_of_lt hk
    simp [lookupA, this]
    exact ih (fun kv hkv => h kv (List.mem_cons_of_mem _ hkv))

theorem keysBelow_mono {α : Type} (m : List (Nat × α)) (t t' : Nat)
    (h : t ≤ t') (hm : keysBelow m t) : keysBelow m t' :=
  fun kv hkv => Nat.lt_of_lt_of_le (hm kv hkv) h

theorem keysBelow_insertA {α : Type} (m : List (Nat × α)) (t : Nat) (v : α)
    (h : keysBelow m t) : keysBelow (insertA m t v) (t + 1) := by
  intro kv hkv
  simp [insertA] at hkv
  rcases hkv with hkv | hkv
  · simp [hkv]
  · exact Nat.lt_succ_of_lt (h kv (mem_of_mem_eraseA m t kv hkv))

theorem keysBelow_eraseA {α : Type} (m : List (Nat × α)) (k t : Nat)
    (h : keysBelow m t) : keysBelow (eraseA m k) t :=
  fun kv hkv => h kv (mem_of_mem_eraseA m k kv hkv)

/- ------------------------------------------------------------------ -/
/- Field-preservation lemmas for the pool operations.                 -/
/- ------------------------------------------------------------------ -/

theorem Put_doHeartBeat (r : RpcClientPool) (c : Nat) :
    (Put r c).doHeartBeat = r.doHeartBeat := by
  unfold Put; split <;> rfl

theorem Put_capacity (r : RpcClientPool) (c : Nat) :
    (Put r c).capacity = r.capacity := by
  unfold Put; split <;> rfl

theorem Put_conn_endpoints (r : RpcClientPool) (c : Nat) :
    (Put r c).conn_endpoints = r.conn_endpoints := by
  unfold Put; split <;> rfl

theorem Put_endpoints_map (r : RpcClientPool) (c : Nat) :
    (Put r c).endpoints_map = r.endpoints_map := by
  unfold Put; split <;> rfl

theorem Put_pool_created (r : RpcClientPool) (c : Nat) :
    (Put r c).pool_created = r.pool_created := by
  unfold Put; split <;> rfl

theorem Put_dialCounter (r : RpcClientPool) (c : Nat) :
    (Put r c).dialCounter = r.dialCounter := by
  unfold Put; split <;> rfl

theorem Put_length_le (r : RpcClientPool) (c : Nat)
    (h : r.conn_pool.length ≤ r.capacity) :
    (Put r c).conn_pool.length ≤ r.capacity := by
  unfold Put; split
  · rename_i hlt
    simp only [List.length_append, List.length_cons, List.length_nil]
    omega
  · exact h

theorem Get_doHeartBeat (dialOk : ConnEndpointInfo → Nat → Bool)
    (r : RpcClientPool) : (Get dialOk r).2.doHeartBeat = r.doHeartBeat := rfl

theorem Get_capacity (dialOk : ConnEndpointInfo → Nat → Bool)
    (r : RpcClientPool) : (Get dialOk r).2.capacity = r.capacity := rfl

theorem Get_endpoints_map (dialOk : ConnEndpointInfo → Nat → Bool)
    (r : RpcClientPool) : (Get dialOk r).2.endpoints_map = r.endpoints_map := rfl

theorem Get_pool_created (dialOk : ConnEndpointInfo → Nat → Bool)
    (r : RpcClientPool) : (Get dialOk r).2.pool_created = r.pool_created := rfl

/- ------------------------------------------------------------------ -/
/- Behaviour of the Get loop.                                         -/
/- ------------------------------------------------------------------ -/

theorem getLoop_queue_le (dialOk : ConnEndpointInfo → Nat → Bool)
    (hb : Nat → Bool) (em : List (Nat × ConnEndpointInfo)) :
    ∀ (queue : List Nat) (ce : List (Nat × Nat)) (t : Nat),
      ((getLoop dialOk hb em queue ce t).2.1).length ≤ queue.length := by
  intro queue
  induction queue with
  | nil => intro ce t; simp [getLoop]
  | cons conn rest ih =>
    intro ce t
    simp only [getLoop, newRPCConn]
    split
    · simp
    · split
      · simp [Nat.le_succ]
      · split
        · simp [Nat.le_succ]
        · simp only [List.length_cons]
          exact Nat.le_succ_of_le (ih _ _)

theorem getLoop_counter_healthy (dialOk : ConnEndpointInfo → Nat → Bool)
    (hb : Nat → Bool) (em : List (Nat × ConnEndpointInfo))
    (queue : List Nat) (ce : List (Nat × Nat)) (t : Nat)
    (h : ∀ c, hb c = true) :
    (getLoop dialOk hb em queue ce t).2.2.2 = t := by
  cases queue with
  | nil => rfl
  | cons conn rest =>
    simp only [getLoop, h conn]
    split <;> rfl

theorem getLoop_all_fail (dialOk : ConnEndpointInfo → Nat → Bool)
    (hb : Nat → Bool) (em : List (Nat × ConnEndpointInfo))
    (hhb : ∀ c, hb c = false)
    (hdial : ∀ ep t, dialOk ep t = false) :
    ∀ (queue : List Nat) (ce : List (Nat × Nat)) (t : Nat),
      (getLoop dialOk hb em queue ce t).1 = none ∧
      (getLoop dialOk hb em queue ce t).2.2.2 ≤ t + queue.length := by
  intro queue
  induction queue with
  | nil => intro ce t; simp [getLoop]
  | cons conn rest ih =>
    intro ce t
    simp only [getLoop, newRPCConn, hhb conn, hdial]
    split
    · simp
    · simp only [Bool.false_eq_true, if_false]
      refine ⟨(ih _ _).1, ?_⟩
      have := (ih (eraseA ce conn) (t + 1)).2
      simp only [List.length_cons]
      omega

/- ------------------------------------------------------------------ -/
/- Sequences of Get / Put operations.                                 -/
/- ------------------------------------------------------------------ -/

theorem step_doHeartBeat (dialOk : ConnEndpointInfo → Nat → Bool)
    (r : RpcClientPool) : ∀ op, (step dialOk r op).doHeartBeat = r.doHeartBeat
  | PoolOp.get => rfl
  | PoolOp.put c => Put_doHeartBeat r c

theorem step_capacity (dialOk : ConnEndpointInfo → Nat → Bool)
    (r : RpcClientPool) : ∀ op, (step dialOk r op).capacity = r.capacity
  | PoolOp.get => rfl
  | PoolOp.put c => Put_capacity r c

theorem step_queue_le (dialOk : ConnEndpointInfo → Nat → Bool)
    (r : RpcClientPool) (op : PoolOp)
    (h : r.conn_pool.length ≤ r.capacity) :
    (step dialOk r op).conn_pool.length ≤ (step dialOk r op).capacity := by
  cases op with
  | get =>
    show ((Get dialOk r).2.conn_pool).length ≤ (Get dialOk r).2.capacity
    rw [Get_capacity]
    exact Nat.le_trans (getLoop_queue_le dialOk r.doHeartBeat r.endpoints_map
      r.conn_pool r.conn_endpoints r.dialCounter) h
  | put c =>
    show ((Put r c).conn_pool).length ≤ (Put r c).capacity
    rw [Put_capacity]
    exact Put_length_le r c h

theorem runOps_capacity (dialOk : ConnEndpointInfo → Nat → Bool) :
    ∀ (ops : List PoolOp) (r : RpcClientPool),
      (runOps dialOk ops r).capacity = r.capacity := by
  intro ops
  induction ops with
  | nil => intro r; rfl
  | cons op rest ih =>
    intro r
    calc (runOps dialOk (op :: rest) r).capacity
        = (step dialOk r op).capacity := ih (step dialOk r op)
      _ = r.capacity := step_capacity dialOk r op

theorem runOps_queue_le (dialOk : ConnEndpointInfo → Nat → Bool) :
    ∀ (ops : List PoolOp) (r : RpcClientPool),
      r.conn_pool.length ≤ r.capacity →
      (runOps dialOk ops r).conn_pool.length ≤ (runOps dialOk ops r).capacity := by
  intro ops
  induction ops with
  | nil => intro r h; exact h
  | cons op rest ih =>
    intro r h
    have hs := step_queue_le dialOk r op h
    exact ih (step dialOk r op) hs

theorem runOps_doHeartBeat (dialOk : ConnEndpointInfo → Nat → Bool) :
    ∀ (ops : List PoolOp) (r : RpcClientPool),
      (runOps dialOk ops r).doHeartBeat = r.doHeartBeat := by
  intro ops
  induction ops with
  | nil => intro r; rfl
  | cons op rest ih =>
    intro r
    calc (runOps dialOk (op :: rest) r).doHeartBeat
        = (step dialOk r op).doHeartBeat := ih (step dialOk r op)
      _ = r.doHeartBeat := step_doHeartBeat dialOk r op

theorem step_dialCounter_healthy (dialOk : ConnEndpointInfo → Nat → Bool)
    (r : RpcClientPool) (op : PoolOp)
    (h : ∀ c, r.doHeartBeat c = true) :
    (step dialOk r op).dialCounter = r.dialCounter := by
  cases op with
  | get =>
    show (Get dialOk r).2.dialCounter = r.dialCounter
    exact getLoop_counter_healthy dialOk r.doHeartBeat r.endpoints_map
      r.conn_pool r.conn_endpoints r.dialCounter h
  | put c => exact Put_dialCounter r c

theorem runOps_dialCounter_healthy (dialOk : ConnEndpointInfo → Nat → Bool) :
    ∀ (ops : List PoolOp) (r : RpcClientPool),
      (∀ c, r.doHeartBeat c = true) →
      (runOps dialOk ops r).dialCounter = r.dialCounter := by
  intro ops
  induction ops with
  | nil => intro r _; rfl
  | cons op rest ih =>
    intro r h
    have hhb : ∀ c, (step dialOk r op).doHeartBeat c = true := by
      rw [step_doHeartBeat dialOk r op]; exact h
    calc (runOps dialOk (op :: rest) r).dialCounter
        = (step dialOk r op).dialCounter := ih (step dialOk r op) hhb
      _ = r.dialCounter := step_dialCounter_healthy dialOk r op h

/- ------------------------------------------------------------------ -/
/- Behaviour of the creation loops.                                   -/
/- ------------------------------------------------------------------ -/

theorem dialLoop_spec (dialOk : ConnEndpointInfo → Nat → Bool) (i : Nat)
    (ep : ConnEndpointInfo) :
    ∀ (j : Nat) (r : RpcClientPool),
      keysBelow r.conn_endpoints r.dialCounter →
      (dialLoop dialOk i ep j r).conn_endpoints.length
          = r.conn_endpoints.length
            + countRange (fun u => dialOk ep u) r.dialCounter j
      ∧ (dialLoop dialOk i ep j r).dialCounter = r.dialCounter + j
      ∧ keysBelow (dialLoop dialOk i ep j r).conn_endpoints
          (dialLoop dialOk i ep j r).dialCounter
      ∧ (dialLoop dialOk i ep j r).capacity = r.capacity
      ∧ (dialLoop dialOk i ep j r).pool_created = r.pool_created
      ∧ (dialLoop dialOk i ep j r).doHeartBeat = r.doHeartBeat
      ∧ (r.conn_pool.length ≤ r.capacity →
          (dialLoop dialOk i ep j r).conn_pool.length ≤ r.capacity) := by
  intro j
  induction j with
  | zero =>
    intro r h
    exact ⟨by simp [dialLoop, countRange], rfl, h, rfl, rfl, rfl,
      fun hq => hq⟩
  | succ j ih =>
    intro r h
    by_cases hc : dialOk ep r.dialCounter = true
    · have hun : dialLoop dialOk i ep (j + 1) r
          = dialLoop dialOk i ep j
              (Put { r with
                  conn_endpoints := insertA r.conn_endpoints r.dialCounter i,
                  dialCounter := r.dialCounter + 1 } r.dialCounter) := by
        simp [dialLoop, newRPCConn, hc]
      have hsce : (Put { r with
          conn_endpoints := insertA r.conn_endpoints r.dialCounter i,
          dialCounter := r.dialCounter + 1 } r.dialCounter).conn_endpoints
          = insertA r.conn_endpoints r.dialCounter i :=
        Put_conn_endpoints _ _
      have hsctr : (Put { r with
          conn_endpoints := insertA r.conn_endpoints r.dialCounter i,
          dialCounter := r.dialCounter + 1 } r.dialCounter).dialCounter
          = r.dialCounter + 1 :=
        Put_dialCounter _ _
      have hscap : (Put { r with
          conn_endpoints := insertA r.conn_endpoints r.dialCounter i,
          dialCounter := r.dialCounter + 1 } r.dialCounter).capacity
          = r.capacity :=
        Put_capacity _ _
      have hspc : (Put { r with
          conn_endpoints := insertA r.conn_endpoints r.dialCounter i,
          dialCounter := r.dialCounter + 1 } r.dialCounter).pool_created
          = r.pool_created :=
        Put_pool_created _ _
      have hshb : (Put { r with
          conn_endpoints := insertA r.conn_endpoints r.dialCounter i,
          dialCounter := r.dialCounter + 1 } r.dialCounter).doHeartBeat
          = r.doHeartBeat :=
        Put_doHeartBeat _ _
      have hkbs : keysBelow (Put { r with
          conn_endpoints := insertA r.conn_endpoints r.dialCounter i,
          dialCounter := r.dialCounter + 1 } r.dialCounter).conn_endpoints
          (Put { r with
          conn_endpoints := insertA r.conn_endpoints r.dialCounter i,
          dialCounter := r.dialCounter + 1 } r.dialCounter).dialCounter := by
        rw [hsce, hsctr]
        exact keysBelow_insertA _ _ _ h
      have hlen1 : (Put { r with
          conn_endpoints := insertA r.conn_endpoints r.dialCounter i,
          dialCounter := r.dialCounter + 1 } r.dialCounter).conn_endpoints.length
          = r.conn_endpoints.length + 1 := by
        rw [hsce]
        exact length_insertA_fresh _ _ _ (keysBelow_lookup_none _ _ h)
      obtain ⟨ihlen, ihctr, ihkb, ihcap, ihpc, ihhb, ihq⟩ := ih _ hkbs
      refine ⟨?_, ?_, ?_, ?_, ?_, ?_, ?_⟩
      · rw [hun, ihlen, hlen1, hsctr]
        simp only [countRange, hc, if_true]
        omega
      · rw [hun, ihctr, hsctr]
        omega
      · rw [hun]; exact ihkb
      · rw [hun, ihcap, hscap]
      · rw [hun, ihpc, hspc]
      · rw [hun, ihhb, hshb]
      · intro hq
        rw [hun]
        have hput : (Put { r with
            conn_endpoints := insertA r.conn_endpoints r.dialCounter i,
            dialCounter := r.dialCounter + 1 } r.dialCounter).conn_pool.length
            ≤ r.capacity :=
          Put_length_le _ _ hq
        have := ihq (by rw [hscap]; exact hput)
        rw [hscap] at this
        exact this
    · have hun : dialLoop dialOk i ep (j + 1) r
          = dialLoop dialOk i ep j { r with dialCounter := r.dialCounter + 1 } := by
        simp [dialLoop, newRPCConn, hc]
      have hkbs : keysBelow
          ({ r with dialCounter := r.dialCounter + 1 } :
            RpcClientPool).conn_endpoints
          ({ r with dialCounter := r.dialCounter + 1 } :
            RpcClientPool).dialCounter :=
        keysBelow_mono _ _ _ (Nat.le_succ _) h
      obtain ⟨ihlen, ihctr, ihkb, ihcap, ihpc, ihhb, ihq⟩ := ih _ hkbs
      have hcf : dialOk ep r.dialCounter = false := by
        simpa using hc
      refine ⟨?_, ?_, ?_, ?_, ?_, ?_, ?_⟩
      · rw [hun, ihlen]
        dsimp only
        simp only [countRange, hcf, Bool.false_eq_true, if_false]
        omega
      · rw [hun, ihctr]
        dsimp only
        omega
      · rw [hun]; exact ihkb
      · rw [hun, ihcap]
      · rw [hun, ihpc]
      · rw [hun, ihhb]
      · intro hq
        rw [hun]
        exact ihq hq

theorem epLoop_spec (dialOk : ConnEndpointInfo → Nat → Bool)
    (conn_per_ep : Nat) :
    ∀ (es : List ConnEndpointInfo) (i : Nat) (r : RpcClientPool),
      keysBelow r.conn_endpoints r.dialCounter →
      (epLoop dialOk conn_per_ep es i r).conn_endpoints.length
          = r.conn_endpoints.length
            + dialSuccesses dialOk conn_per_ep es r.dialCounter
      ∧ (epLoop dialOk conn_per_ep es i r).capacity = r.capacity
      ∧ (epLoop dialOk conn_per_ep es i r).pool_created = r.pool_created
      ∧ (epLoop dialOk conn_per_ep es i r).doHeartBeat = r.doHeartBeat
      ∧ (r.conn_pool.length ≤ r.capacity →
          (epLoop dialOk conn_per_ep es i r).conn_pool.length ≤ r.capacity) := by
  intro es
  induction es with
  | nil =>
    intro i r h
    exact ⟨by simp [epLoop, dialSuccesses], rfl, rfl, rfl, fun hq => hq⟩
  | cons ep rest ih =>
    intro i r h
    have hkbm : keysBelow
        ({ r with endpoints_map := insertA r.endpoints_map i ep } :
          RpcClientPool).conn_endpoints
        ({ r with endpoints_map := insertA r.endpoints_map i ep } :
          RpcClientPool).dialCounter := h
    obtain ⟨dlen, dctr, dkb, dcap, dpc, dhb, dq⟩ :=
      dialLoop_spec dialOk i ep conn_per_ep
        { r with endpoints_map := insertA r.endpoints_map i ep } hkbm
    obtain ⟨elen, ecap, epc, ehb, eq2⟩ := ih (i + 1) _ dkb
    have hun : epLoop dialOk conn_per_ep (ep :: rest) i r
        = epLoop dialOk conn_per_ep rest (i + 1)
            (dialLoop dialOk i ep conn_per_ep
              { r with endpoints_map := insertA r.endpoints_map i ep }) := by
      simp [epLoop]
    refine ⟨?_, ?_, ?_, ?_, ?_⟩
    · rw [hun, elen, dlen, dctr]
      dsimp only
      simp only [dialSuccesses]
      omega
    · rw [hun, ecap, dcap]
    · rw [hun, epc, dpc]
    · rw [hun, ehb, dhb]
    · intro hq
      rw [hun]
      have h1 := dq hq
      have h2 := eq2 (by rw [dcap]; exact h1)
      rw [dcap] at h2
      exact h2

theorem createPool_cases (hb : Nat → Bool)
    (dialOk : ConnEndpointInfo → Nat → Bool)
    (endpoints : List ConnEndpointInfo) (conn_per_ep : Nat)
    (hcond : ¬(endpoints.length = 0 ∨ conn_per_ep = 0)) :
    ∃ E : RpcClientPool,
      E.conn_endpoints.length = dialSuccesses dialOk conn_per_ep endpoints 0 ∧
      E.capacity = conn_per_ep * endpoints.length ∧
      E.pool_created = false ∧
      E.doHeartBeat = hb ∧
      E.conn_pool.length ≤ E.capacity ∧
      createPool dialOk endpoints conn_per_ep (RpcClientPool.init hb)
        = (if E.conn_endpoints.length = 0 then (E, some PoolError.fatal)
           else ({ E with pool_created := true }, none)) := by
  have hkb : keysBelow
      ({ RpcClientPool.init hb with conn_endpoints := [], conn_pool := [],
                                    capacity := conn_per_ep * endpoints.length,
                                    endpoints_map := [] } :
        RpcClientPool).conn_endpoints
      ({ RpcClientPool.init hb with conn_endpoints := [], conn_pool := [],
                                    capacity := conn_per_ep * endpoints.length,
                                    endpoints_map := [] } :
        RpcClientPool).dialCounter :=
    fun kv hkv => absurd hkv (List.not_mem_nil kv)
  obtain ⟨elen, ecap, epc, ehb, eq2⟩ :=
    epLoop_spec dialOk conn_per_ep endpoints 0 _ hkb
  refine ⟨epLoop dialOk conn_per_ep endpoints 0
    { RpcClientPool.init hb with conn_endpoints := [], conn_pool := [],
                                 capacity := conn_per_ep * endpoints.length,
                                 endpoints_map := [] }, ?_, ?_, ?_, ?_, ?_, ?_⟩
  · rw [elen]
    simp [RpcClientPool.init]
  · rw [ecap]
  · rw [epc]
    simp [RpcClientPool.init]
  · rw [ehb]
    simp [RpcClientPool.init]
  · rw [ecap]
    exact eq2 (Nat.zero_le _)
  · unfold createPool
    rw [if_neg hcond]

theorem NewRpcClientPool_spec (hb : Nat → Bool)
    (dialOk : ConnEndpointInfo → Nat → Bool)
    (endpoints : List ConnEndpointInfo) (conn_per_ep : Nat)
    (r : RpcClientPool)
    (h : NewRpcClientPool hb dialOk endpoints conn_per_ep = some r) :
    r.pool_created = true ∧
    r.capacity = conn_per_ep * endpoints.length ∧
    r.conn_endpoints.length = dialSuccesses dialOk conn_per_ep endpoints 0 ∧
    r.conn_pool.length ≤ r.capacity ∧
    r.doHeartBeat = hb ∧
    r.conn_endpoints.length ≠ 0 := by
  by_cases hcond : endpoints.length = 0 ∨ conn_per_ep = 0
  · unfold NewRpcClientPool createPool at h
    rw [if_pos hcond] at h
    exact Option.noConfusion h
  · obtain ⟨E, hlen, hcap, hpc, hhb, hq, hrun⟩ :=
      createPool_cases hb dialOk endpoints conn_per_ep hcond
    unfold NewRpcClientPool at h
    rw [hrun] at h
    by_cases hz : E.conn_endpoints.length = 0
    · rw [if_pos hz] at h
      exact Option.noConfusion h
    · rw [if_neg hz] at h
      have h2 : ({ E with pool_created := true } : RpcClientPool) = r :=
        Option.some.inj h
      subst h2
      exact ⟨rfl, hcap, hlen, hq, hhb, hz⟩

/- ------------------------------------------------------------------ -/
/- Concrete fixtures used by the witness theorems.                    -/
/- ------------------------------------------------------------------ -/

/-- A dial oracle on which every attempt fails. -/
def wDialFail : ConnEndpointInfo → Nat → Bool := fun _ _ => false

/-- A dial oracle on which every attempt succeeds. -/
def wDialOk : ConnEndpointInfo → Nat → Bool := fun _ _ => true

/-- A sample endpoint descriptor. -/
def wEp1 : ConnEndpointInfo :=
  { tls := false, certFile := "", serverHostOverride := "",
    serverAddr := "addr1" }

/-- A pool with two idle connections and an always-failing heartbeat. -/
def wPoolDead : RpcClientPool :=
  { doHeartBeat := fun _ => false, conn_pool := [5, 7],
    conn_endpoints := [(5, 0), (7, 1)], endpoints_map := [(0, wEp1)],
    capacity := 2, pool_created := true, dialCounter := 10 }

/-- A pool with one idle unhealthy connection recorded under endpoint 1. -/
def wPoolRedial : RpcClientPool :=
  { doHeartBeat := fun _ => false, conn_pool := [5],
    conn_endpoints := [(5, 1)], endpoints_map := [(1, wEp1)],
    capacity := 1, pool_created := true, dialCounter := 9 }

/-- A pool with an always-healthy heartbeat. -/
def wPoolHealthy : RpcClientPool :=
  { doHeartBeat := fun _ => true, conn_pool := [3],
    conn_endpoints := [(3, 0)], endpoints_map := [(0, wEp1)],
    capacity := 1, pool_created := true, dialCounter := 4 }

/-- A non-empty pool whose idle queue is empty. -/
def wPoolEmptyQ : RpcClientPool :=
  { doHeartBeat := fun _ => true, conn_pool := [],
    conn_endpoints := [(3, 0)], endpoints_map := [(0, wEp1)],
    capacity := 1, pool_created := true, dialCounter := 4 }

/-- A second sample endpoint descriptor. -/
def wEp2 : ConnEndpointInfo :=
  { tls := false, certFile := "", serverHostOverride := "",
    serverAddr := "addr2" }

/-- A dial oracle on which exactly attempt 1 fails (3 of 4 attempts of a
2-endpoint, 2-connection creation succeed). -/
def wDial3of4 : ConnEndpointInfo → Nat → Bool := fun _ t => t != 1

/-- The pool NewRpcClientPool builds from one endpoint with one connection
per endpoint under the always-succeeding dial oracle. -/
def wPoolBuilt : RpcClientPool :=
  { doHeartBeat := fun _ => true, conn_pool := [0],
    conn_endpoints := [(0, 0)], endpoints_map := [(0, wEp1)],
    capacity := 1, pool_created := true, dialCounter := 1 }

/- ------------------------------------------------------------------ -/
/- Claim theorems.                                                    -/
/- ------------------------------------------------------------------ -/

/-- C2: if the heartbeat always fails and every redial attempt fails,
every Get call returns none, and the number of retry attempts (counted by
the dial counter, which advances once per redial attempt) is bounded by
the number of idle connections in the queue — the recursion consumes one
idle connection per retry, so it cannot recurse unboundedly. -/
theorem get_always_failing_heartbeat_bounded
    (dialOk : ConnEndpointInfo → Nat → Bool) (r : RpcClientPool)
    (hhb : ∀ c, r.doHeartBeat c = false)
    (hdial : ∀ ep t, dialOk ep t = false) :
    (Get dialOk r).1 = none ∧
    (Get dialOk r).2.dialCounter ≤ r.dialCounter + r.conn_pool.length := by
  have h := getLoop_all_fail dialOk r.doHeartBeat r.endpoints_map hhb hdial
    r.conn_pool r.conn_endpoints r.dialCounter
  exact ⟨h.1, h.2⟩

/-- Witness for C2 at a concrete two-connection pool. -/
theorem get_always_failing_heartbeat_bounded_witness :
    (Get wDialFail wPoolDead).1 = none ∧
    (Get wDialFail wPoolDead).2.dialCounter
      ≤ wPoolDead.dialCounter + wPoolDead.conn_pool.length :=
  get_always_failing_heartbeat_bounded wDialFail wPoolDead
    (fun _ => rfl) (fun _ _ => rfl)

/-- C3: when the acquired connection fails its heartbeat and it is
recorded under endpoint index `ep`, Get deletes it from the ownership map
and redials the descriptor stored under that same index; when the redial
succeeds, the fresh connection (the current dial-counter handle) is
recorded under the same index and is the returned value.  The freshness
hypothesis `hfresh` is the dial-counter modelling invariant (every pooled
handle was produced by an earlier attempt). -/
theorem get_redial_same_endpoint
    (dialOk : ConnEndpointInfo → Nat → Bool) (r : RpcClientPool)
    (conn ep : Nat) (rest : List Nat)
    (hq : r.conn_pool = conn :: rest)
    (hne : r.conn_endpoints.length ≠ 0)
    (hhb : r.doHeartBeat conn = false)
    (hown : lookupA r.conn_endpoints conn = some ep)
    (hdial : dialOk ((lookupA r.endpoints_map ep).getD ConnEndpointInfo.zero)
      r.dialCounter = true)
    (hfresh : conn ≠ r.dialCounter) :
    (Get dialOk r).1 = some r.dialCounter ∧
    lookupA (Get dialOk r).2.conn_endpoints conn = none ∧
    lookupA (Get dialOk r).2.conn_endpoints r.dialCounter = some ep := by
  have hloop : getLoop dialOk r.doHeartBeat r.endpoints_map
      r.conn_pool r.conn_endpoints r.dialCounter
      = (some r.dialCounter, rest,
          insertA (eraseA r.conn_endpoints conn) r.dialCounter ep,
          r.dialCounter + 1) := by
    rw [hq]
    simp [getLoop, hne, hhb, hown, newRPCConn, hdial]
  refine ⟨?_, ?_, ?_⟩
  · show (getLoop dialOk r.doHeartBeat r.endpoints_map
      r.conn_pool r.conn_endpoints r.dialCounter).1 = some r.dialCounter
    rw [hloop]
  · show lookupA (getLoop dialOk r.doHeartBeat r.endpoints_map
      r.conn_pool r.conn_endpoints r.dialCounter).2.2.1 conn = none
    rw [hloop]
    rw [lookupA_insertA_ne _ _ _ _ hfresh]
    exact lookupA_eraseA_self r.conn_endpoints conn
  · show lookupA (getLoop dialOk r.doHeartBeat r.endpoints_map
      r.conn_pool r.conn_endpoints r.dialCounter).2.2.1 r.dialCounter = some ep
    rw [hloop]
    exact lookupA_insertA_self _ _ _

/-- Witness for C3 at a concrete pool holding one dead connection. -/
theorem get_redial_same_endpoint_witness :
    (Get wDialOk wPoolRedial).1 = some 9 ∧
    lookupA (Get wDialOk wPoolRedial).2.conn_endpoints 5 = none ∧
    lookupA (Get wDialOk wPoolRedial).2.conn_endpoints 9 = some 1 :=
  get_redial_same_endpoint wDialOk wPoolRedial 5 1 [] rfl (by decide)
    rfl rfl rfl (by decide)

/-- C6: a Get on a pool whose idle queue is empty returns none at once and
leaves the pool unchanged — there is no waiting for a connection. -/
theorem get_empty_queue_returns_none
    (dialOk : ConnEndpointInfo → Nat → Bool) (r : RpcClientPool)
    (h : r.conn_pool = []) : Get dialOk r = (none, r) := by
  obtain ⟨hb, q, ce, em, cap, pc, t⟩ := r
  have h2 : q = [] := h
  subst h2
  rfl

/-- Witness for C6 at a concrete pool with an empty idle queue. -/
theorem get_empty_queue_returns_none_witness :
    Get wDialOk wPoolEmptyQ = (none, wPoolEmptyQ) :=
  get_empty_queue_returns_none wDialOk wPoolEmptyQ rfl

/-- C7: with a heartbeat that succeeds on every invocation, no sequence of
Get / Put operations after creation ever advances the dial counter — that
is, Get never invokes the dial function newRPCConn again (the counter
advances exactly once per newRPCConn evaluation). -/
theorem get_healthy_heartbeat_no_dial
    (dialOk : ConnEndpointInfo → Nat → Bool) (r : RpcClientPool)
    (h : ∀ c, r.doHeartBeat c = true) :
    ∀ ops, (runOps dialOk ops r).dialCounter = r.dialCounter :=
  fun ops => runOps_dialCounter_healthy dialOk ops r h

/-- Witness for C7 at a concrete healthy pool and operation sequence. -/
theorem get_healthy_heartbeat_no_dial_witness :
    (runOps wDialOk [PoolOp.get, PoolOp.put 3, PoolOp.get]
      wPoolHealthy).dialCounter = wPoolHealthy.dialCounter :=
  get_healthy_heartbeat_no_dial wDialOk wPoolHealthy (fun _ => rfl)
    [PoolOp.get, PoolOp.put 3, PoolOp.get]

/-- C4: for a non-empty endpoint list and a non-zero connections-per-
endpoint count, when k of the conn_per_ep * numEndpoints dial attempts of
pool creation succeed (k counted by dialSuccesses over createPool's
attempt schedule): if k is non-zero, creation succeeds with pool_created
true and the ownership map tracking exactly k connections; if k is zero,
NewRpcClientPool returns nil, createPool returns the FATAL_ERROR error,
and pool_created stays false. -/
theorem createPool_success_count (hb : Nat → Bool)
    (dialOk : ConnEndpointInfo → Nat → Bool)
    (endpoints : List ConnEndpointInfo) (conn_per_ep : Nat)
    (hne : endpoints ≠ []) (hcpe : conn_per_ep ≠ 0) :
    (dialSuccesses dialOk conn_per_ep endpoints 0 ≠ 0 →
      ∃ r, NewRpcClientPool hb dialOk endpoints conn_per_ep = some r ∧
        r.pool_created = true ∧
        r.conn_endpoints.length = dialSuccesses dialOk conn_per_ep endpoints 0)
    ∧ (dialSuccesses dialOk conn_per_ep endpoints 0 = 0 →
      NewRpcClientPool hb dialOk endpoints conn_per_ep = none ∧
      (createPool dialOk endpoints conn_per_ep (RpcClientPool.init hb)).2
        = some PoolError.fatal ∧
      (createPool dialOk endpoints conn_per_ep
        (RpcClientPool.init hb)).1.pool_created = false) := by
  have hcond : ¬(endpoints.length = 0 ∨ conn_per_ep = 0) := by
    push_neg
    exact ⟨fun hl => hne (List.length_eq_zero.mp hl), hcpe⟩
  obtain ⟨E, hlen, hcap, hpc, hhb, hq, hrun⟩ :=
    createPool_cases hb dialOk endpoints conn_per_ep hcond
  constructor
  · intro hk
    have hz : ¬E.conn_endpoints.length = 0 := by rw [hlen]; exact hk
    refine ⟨{ E with pool_created := true }, ?_, rfl, ?_⟩
    · unfold NewRpcClientPool
      rw [hrun, if_neg hz]
    · exact hlen
  · intro hk
    have hz : E.conn_endpoints.length = 0 := by rw [hlen]; exact hk
    refine ⟨?_, ?_, ?_⟩
    · unfold NewRpcClientPool
      rw [hrun, if_pos hz]
    · rw [hrun, if_pos hz]
    · rw [hrun, if_pos hz]
      exact hpc

/-- Witness for C4: with two endpoints, two connections per endpoint and
the oracle on which only attempt 1 fails, creation succeeds tracking
exactly the 3 successful connections. -/
theorem createPool_success_count_witness :
    ∃ r, NewRpcClientPool (fun _ => true) wDial3of4 [wEp1, wEp2] 2 = some r ∧
      r.pool_created = true ∧
      r.conn_endpoints.length = dialSuccesses wDial3of4 2 [wEp1, wEp2] 0 :=
  (createPool_success_count (fun _ => true) wDial3of4 [wEp1, wEp2] 2
    (by decide) (by decide)).1 (by decide)

/-- C5: a pool built by NewRpcClientPool has channel capacity
conn_per_ep * numEndpoints, the idle queue length never exceeds that
capacity along any sequence of Get / Put operations, and a Put on a pool
whose queue is at capacity leaves the pool unchanged (the connection is
silently dropped; Put has no error result). -/
theorem pool_queue_capacity_invariant (hb : Nat → Bool)
    (dialOk : ConnEndpointInfo → Nat → Bool)
    (endpoints : List ConnEndpointInfo) (conn_per_ep : Nat)
    (r : RpcClientPool)
    (h : NewRpcClientPool hb dialOk endpoints conn_per_ep = some r) :
    r.capacity = conn_per_ep * endpoints.length ∧
    (∀ ops, (runOps dialOk ops r).conn_pool.length
        ≤ conn_per_ep * endpoints.length) ∧
    (∀ (p : RpcClientPool) (c : Nat),
      p.conn_pool.length = p.capacity → Put p c = p) := by
  obtain ⟨hpc, hcap, hlen, hq, hhb, hnz⟩ :=
    NewRpcClientPool_spec hb dialOk endpoints conn_per_ep r h
  refine ⟨hcap, ?_, ?_⟩
  · intro ops
    have h1 := runOps_queue_le dialOk ops r hq
    rw [runOps_capacity dialOk ops r, hcap] at h1
    exact h1
  · intro p c hfull
    unfold Put
    rw [if_neg (by omega)]

/-- Witness for C5 at a concretely built one-connection pool: two releases
beyond capacity and an acquire keep the queue within capacity 1. -/
theorem pool_queue_capacity_invariant_witness :
    (runOps wDialOk [PoolOp.put 9, PoolOp.put 8, PoolOp.get]
      wPoolBuilt).conn_pool.length ≤ 1 * [wEp1].length :=
  (pool_queue_capacity_invariant (fun _ => true) wDialOk [wEp1] 1
    wPoolBuilt rfl).2.1 [PoolOp.put 9, PoolOp.put 8, PoolOp.get]

/-- C8: createPool returns the INVALID_REQ error exactly when the endpoint
list is empty or connections-per-endpoint is zero — for every starting
pool state, so in particular at the single creation-time call; Get and Put
have no error result at all, so the error can arise nowhere else. -/
theorem createPool_invalidConfig_iff
    (dialOk : ConnEndpointInfo → Nat → Bool)
    (endpoints : List ConnEndpointInfo) (conn_per_ep : Nat)
    (r : RpcClientPool) :
    (createPool dialOk endpoints conn_per_ep r).2
        = some PoolError.invalidConfig
      ↔ (endpoints = [] ∨ conn_per_ep = 0) := by
  constructor
  · intro h
    by_contra hcon
    push_neg at hcon
    have hcond : ¬(endpoints.length = 0 ∨ conn_per_ep = 0) := by
      push_neg
      exact ⟨fun hl => hcon.1 (List.length_eq_zero.mp hl), hcon.2⟩
    unfold createPool at h
    rw [if_neg hcond] at h
    by_cases hz : (epLoop dialOk conn_per_ep endpoints 0
        { r with conn_endpoints := [], conn_pool := [],
                 capacity := conn_per_ep * endpoints.length,
                 endpoints_map := [] }).conn_endpoints.length = 0
    · rw [if_pos hz] at h
      simp at h
    · rw [if_neg hz] at h
      simp at h
  · intro h
    have hcond : endpoints.length = 0 ∨ conn_per_ep = 0 := by
      cases h with
      | inl h => exact Or.inl (by simp [h])
      | inr h => exact Or.inr h
    unfold createPool
    rw [if_pos hcond]

/- ------------------------------------------------------------------ -/
/- Registry fixtures and claims.                                      -/
/- ------------------------------------------------------------------ -/

/-- A client config for service "s" at addr1. -/
def wCfgA : GrpcClientConfig :=
  { svcName := "s", useTls := false, certFile := "",
    serverHostOverride := "", serverAddr := "addr1" }

/-- A second client config for the same service "s" at addr2. -/
def wCfgB : GrpcClientConfig :=
  { svcName := "s", useTls := false, certFile := "",
    serverHostOverride := "", serverAddr := "addr2" }

/-- A registry input listing two configs of the one service "s". -/
def wRegTwo : Configurations :=
  { clientConfig := [wCfgA, wCfgB], client_map := [] }

/-- A heartbeat map for service "s". -/
def wHbMap : List (String × (Nat → Bool)) := [("s", fun _ => true)]

/-- An empty registry. -/
def wRegEmpty : Configurations := { clientConfig := [], client_map := [] }

/-- C1: the grouping loop of CreateClientPool loses every client config
whose service name was already in the map — the Go then-branch appends to
the local copy of the slice and never stores it back — so with two configs
for service "s" the grouped list holds only the first config, and the pool
built for "s" is created from one endpoint descriptor (its endpoint table
has a single entry), not from the complete grouped list. -/
theorem createClientPool_drops_duplicate_endpoint :
    groupConfigs [wCfgA, wCfgB] [] = [("s", [wCfgA])] ∧
    ∃ pool,
      lookupA (CreateClientPool wHbMap wDialOk wRegTwo 1).1.client_map "s"
        = some (some pool) ∧
      pool.endpoints_map.length = 1 :=
  ⟨rfl, ⟨_, rfl, rfl⟩⟩

/-- C9: a release (PooledConnDone) naming a service with no pool in the
registry's client map panics — crashing the process — while an acquire
(GetPooledConn) under the same unknown name returns nil rather than
raising an error. -/
theorem registry_unknown_service
    (dialOk : ConnEndpointInfo → Nat → Bool) (c : Configurations)
    (svc : String) (conn : Nat)
    (h : lookupA c.client_map svc = none) :
    GetPooledConn dialOk c svc = PanicOr.ok (none, c) ∧
    PooledConnDone c svc conn
      = PanicOr.panic "unexpected connection returned to pool." := by
  constructor
  · unfold GetPooledConn
    rw [h]
  · unfold PooledConnDone
    rw [h]

/-- Witness for C9 at an empty registry. -/
theorem registry_unknown_service_witness :
    GetPooledConn wDialOk wRegEmpty "svc" = PanicOr.ok (none, wRegEmpty) ∧
    PooledConnDone wRegEmpty "svc" 0
      = PanicOr.panic "unexpected connection returned to pool." :=
  registry_unknown_service wDialOk wRegEmpty "svc" 0 rfl

theorem buildPools_keeps_earlier (hm : List (String × (Nat → Bool)))
    (dialOk : ConnEndpointInfo → Nat → Bool) (cpe : Nat) :
    ∀ (gs1 : List (String × List GrpcClientConfig)) (k : String)
      (v : List GrpcClientConfig)
      (gs2 : List (String × List GrpcClientConfig)) (c : Configurations),
      ((gs1.map Prod.fst) ++ [k]).Nodup →
      (∀ p ∈ gs1, ∃ f pool, lookupA hm p.1 = some f ∧
          NewRpcClientPool f dialOk (p.2.map GrpcClientConfig.toEndpoint) cpe
            = some pool) →
      (∃ f, lookupA hm k = some f ∧
          NewRpcClientPool f dialOk (v.map GrpcClientConfig.toEndpoint) cpe
            = none) →
      ∃ c2, buildPools hm dialOk cpe (gs1 ++ (k, v) :: gs2) c
            = (c2, some ("Failed to create conn pool for Service " ++ k)) ∧
        (∀ p ∈ gs1, ∃ f pool, lookupA hm p.1 = some f ∧
            NewRpcClientPool f dialOk (p.2.map GrpcClientConfig.toEndpoint) cpe
              = some pool ∧
            lookupA c2.client_map p.1 = some (some pool)) ∧
        (∀ s, s ∉ gs1.map Prod.fst → s ≠ k →
            lookupA c2.client_map s = lookupA c.client_map s) := by
  intro gs1
  induction gs1 with
  | nil =>
    intro k v gs2 c hnd hok hfail
    obtain ⟨f, hf, hpool⟩ := hfail
    refine ⟨{ c with client_map := insertA c.client_map k none }, ?_, ?_, ?_⟩
    · show buildPools hm dialOk cpe ((k, v) :: gs2) c = _
      unfold buildPools
      rw [hf]
      dsimp only
      rw [hpool]
    · intro p hp
      exact absurd hp (List.not_mem_nil p)
    · intro s _ hsk
      exact lookupA_insertA_ne _ _ _ _ hsk
  | cons hd gs1 ih =>
    obtain ⟨k0, v0⟩ := hd
    intro k v gs2 c hnd hok hfail
    have hnd2 : (k0 :: (gs1.map Prod.fst ++ [k])).Nodup := by
      simpa using hnd
    have hk0nin : k0 ∉ gs1.map Prod.fst ++ [k] :=
      (List.nodup_cons.mp hnd2).1
    have hnd3 : ((gs1.map Prod.fst) ++ [k]).Nodup :=
      (List.nodup_cons.mp hnd2).2
    have hk0g : k0 ∉ gs1.map Prod.fst := by
      intro hmem
      exact hk0nin (List.mem_append.mpr (Or.inl hmem))
    have hk0k : k0 ≠ k := by
      intro heq
      exact hk0nin (List.mem_append.mpr (Or.inr (by simp [heq])))
    obtain ⟨f0, pool0, hf0, hpool0⟩ := hok (k0, v0) (List.mem_cons_self _ _)
    have hf02 : lookupA hm k0 = some f0 := hf0
    have hpool02 : NewRpcClientPool f0 dialOk
        (List.map GrpcClientConfig.toEndpoint v0) cpe = some pool0 := hpool0
    have hstep : buildPools hm dialOk cpe (((k0, v0) :: gs1) ++ (k, v) :: gs2) c
        = buildPools hm dialOk cpe (gs1 ++ (k, v) :: gs2)
            { c with client_map := insertA c.client_map k0 (some pool0) } := by
      show buildPools hm dialOk cpe ((k0, v0) :: (gs1 ++ (k, v) :: gs2)) c = _
      simp only [buildPools]
      rw [hf02]
      dsimp only
      rw [hpool02]
    obtain ⟨c2, heq, hprev, hpres⟩ := ih k v gs2
      { c with client_map := insertA c.client_map k0 (some pool0) }
      hnd3 (fun p hp => hok p (List.mem_cons_of_mem _ hp)) hfail
    refine ⟨c2, ?_, ?_, ?_⟩
    · rw [hstep]
      exact heq
    · intro p hp
      rcases List.mem_cons.mp hp with hp | hp
      · subst hp
        refine ⟨f0, pool0, hf0, hpool0, ?_⟩
        rw [hpres k0 hk0g hk0k]
        exact lookupA_insertA_self _ _ _
      · exact hprev p hp
    · intro s hs hsk
      have hs1 : s ∉ gs1.map Prod.fst := by
        intro hmem
        exact hs (by simp [hmem])
      have hsk0 : s ≠ k0 := by
        intro heq
        exact hs (by simp [heq])
      rw [hpres s hs1 hsk]
      exact lookupA_insertA_ne _ _ _ _ hsk0

/-- C10: the registry build is not atomic: when pool creation fails for
the service at some position of the grouped iteration order (every
earlier service having a heartbeat and a successful pool creation),
CreateClientPool returns the error, yet each earlier service's pool is
still stored in the client map, is marked created, and an acquire for it
still goes through that pool's Get. -/
theorem createClientPool_not_atomic
    (hm : List (String × (Nat → Bool)))
    (dialOk : ConnEndpointInfo → Nat → Bool) (cfg : Configurations)
    (cpe : Nat) (gs1 : List (String × List GrpcClientConfig))
    (k : String) (v : List GrpcClientConfig)
    (gs2 : List (String × List GrpcClientConfig))
    (hsplit : groupConfigs cfg.clientConfig [] = gs1 ++ (k, v) :: gs2)
    (hnd : ((gs1.map Prod.fst) ++ [k]).Nodup)
    (hok : ∀ p ∈ gs1, ∃ f pool, lookupA hm p.1 = some f ∧
        NewRpcClientPool f dialOk (p.2.map GrpcClientConfig.toEndpoint) cpe
          = some pool)
    (hfail : ∃ f, lookupA hm k = some f ∧
        NewRpcClientPool f dialOk (v.map GrpcClientConfig.toEndpoint) cpe
          = none) :
    ∃ c2, CreateClientPool hm dialOk cfg cpe
        = (c2, some ("Failed to create conn pool for Service " ++ k)) ∧
      ∀ p ∈ gs1, ∃ pool,
        lookupA c2.client_map p.1 = some (some pool) ∧
        pool.pool_created = true ∧
        GetPooledConn dialOk c2 p.1
          = PanicOr.ok ((Get dialOk pool).1,
              { c2 with client_map :=
                  insertA c2.client_map p.1 (some (Get dialOk pool).2) }) := by
  obtain ⟨c2, heq, hprev, hpres⟩ := buildPools_keeps_earlier hm dialOk cpe
    gs1 k v gs2 { cfg with client_map := [] } hnd hok hfail
  refine ⟨c2, ?_, ?_⟩
  · unfold CreateClientPool
    rw [hsplit]
    exact heq
  · intro p hp
    obtain ⟨f, pool, hf, hpool, hlook⟩ := hprev p hp
    have hcreated : pool.pool_created = true :=
      (NewRpcClientPool_spec f dialOk _ cpe pool hpool).1
    refine ⟨pool, hlook, hcreated, ?_⟩
    unfold GetPooledConn
    rw [hlook]
    dsimp only
    rw [if_pos hcreated]

/-- A dial oracle succeeding only against addr1. -/
def wDialA : ConnEndpointInfo → Nat → Bool :=
  fun ep _ => ep.serverAddr == "addr1"

/-- A client config for service "a" at the reachable addr1. -/
def wCfgA2 : GrpcClientConfig :=
  { svcName := "a", useTls := false, certFile := "",
    serverHostOverride := "", serverAddr := "addr1" }

/-- A client config for service "b" at the unreachable addr2. -/
def wCfgB2 : GrpcClientConfig :=
  { svcName := "b", useTls := false, certFile := "",
    serverHostOverride := "", serverAddr := "addr2" }

/-- A registry input with one reachable and one unreachable service. -/
def wRegAB : Configurations :=
  { clientConfig := [wCfgA2, wCfgB2], client_map := [] }

/-- Heartbeat functions for both services "a" and "b". -/
def wHbMap2 : List (String × (Nat → Bool)) :=
  [("a", fun _ => true), ("b", fun _ => true)]

/-- Witness for C10: service "a" builds, service "b" fails all dials; the
build errors but "a" keeps a usable pool. -/
theorem createClientPool_not_atomic_witness :
    ∃ c2, CreateClientPool wHbMap2 wDialA wRegAB 1
        = (c2, some ("Failed to create conn pool for Service " ++ "b")) ∧
      ∀ p ∈ [("a", [wCfgA2])], ∃ pool,
        lookupA c2.client_map p.1 = some (some pool) ∧
        pool.pool_created = true ∧
        GetPooledConn wDialA c2 p.1
          = PanicOr.ok ((Get wDialA pool).1,
              { c2 with client_map :=
                  insertA c2.client_map p.1 (some (Get wDialA pool).2) }) :=
  createClientPool_not_atomic wHbMap2 wDialA wRegAB 1 [("a", [wCfgA2])]
    "b" [wCfgB2] [] rfl (by decide)
    (by
      intro p hp
      rw [List.mem_singleton] at hp
      subst hp
      exact ⟨_, _, rfl, rfl⟩)
    ⟨_, rfl, rfl⟩
